import Mathlib

/-
Verification of the Babylon BTC-staking core against its specification.

The repository sources at hand contain the test suite of the `btcstaking`
package, the CLI command file of the `btcstaking` module, and the epoching
hooks.  The `btcstaking` package itself (BuildStakingInfo, the spend-info
accessors and the witness assemblers) is exercised by the tests but its
implementation file is not among the sources, so those operations are
modelled from the specification (sections 3, 4.1, 4.2 and 4.4 of the spec)
and the claims about them are settled against that model.  `parseLockTime`,
`parseBtcAmount` and `MultiEpochingHooks` are embedded directly from the
sources.
-/

set_option linter.unusedVariables false

namespace BabylonStaking

/-- A 32-byte x-only BIP-340 public key, modelled by the numeric value of its
big-endian serialization.  Byte-lexicographic comparison of two equal-length
serialized keys coincides with numeric comparison of these values, so the
descending byte-lexicographic key order of the spec is descending numeric
order here. -/
abbrev PubKey := Nat

/-- Modelled from the spec: the `btcstaking` package implementation is not
among the provided sources (only its tests are), so a 64-byte BIP-340
Schnorr signature over the fixed tapleaf sighash is modelled abstractly by
the key that produced it; a signature verifies against a public key exactly
when that key produced it. -/
structure SchnorrSig where
  signer : PubKey
  deriving DecidableEq, Repr

/-- Modelled from the spec (section 4.1): the three compiled leaf scripts of
the staking output, carrying exactly the data the script template builder
bakes in.  Key lists are stored in the script-encoded order (descending
lexicographic by serialized key). -/
inductive Script where
  | timelock (staker : PubKey) (timelockBlocks : Nat)
  | unbonding (covKeys : List PubKey) (covThreshold : Nat) (staker : PubKey)
  | slashing (covKeys : List PubKey) (covThreshold : Nat) (valKeys : List PubKey) (staker : PubKey)
  deriving DecidableEq, Repr

/-- A witness stack for a script-path spend: the signature elements followed
by the revealed leaf script and the control block.  A `none` entry in
`sigElems` is the zero-length witness element standing for a missing
signature in that key slot. -/
structure Witness where
  sigElems : List (Option SchnorrSig)
  leafScript : Script
  controlBlock : List Nat
  deriving DecidableEq, Repr

/-- Per-path spend information: the revealed leaf script and its control
block (spec section 3, `SpendInfo`). -/
structure SpendInfo where
  revealedLeaf : Script
  controlBlock : List Nat
  deriving DecidableEq, Repr

/-- A transaction output: output script bytes plus value in satoshi. -/
structure TxOut where
  pkScript : List Nat
  value : Int
  deriving DecidableEq, Repr

/-- The staking output descriptor produced by `BuildStakingInfo`: the final
output plus the three compiled leaf scripts of its script tree. -/
structure StakingInfo where
  stakingOutput : TxOut
  timeLockScript : Script
  unbondingScript : Script
  slashingScript : Script
  deriving DecidableEq, Repr

/-- Build-time configuration errors of the script template builder
(spec section 4.1). -/
inductive BuildError where
  | emptyKeySet
  | invalidThreshold
  deriving DecidableEq, Repr

/-- Witness-assembly errors (spec sections 4.4 and 7). -/
inductive WitnessError where
  | signatureCountMismatch
  | wrongLeaf
  deriving DecidableEq, Repr

/-- Insert a key into a descending-sorted key list. -/
def insertDesc (x : Nat) : List Nat → List Nat
  | [] => [x]
  | y :: ys => if y < x then x :: y :: ys else y :: insertDesc x ys

/-- Sort keys in descending numeric order, which models the descending
byte-lexicographic order of their fixed-width serializations. -/
def sortDesc : List Nat → List Nat
  | [] => []
  | x :: xs => insertDesc x (sortDesc xs)

/-- A signature together with the public key that produced it, as in the
test helper `SignatureInfo` of the `btcstaking` tests. -/
structure SignatureInfo where
  signerPubKey : PubKey
  signature : SchnorrSig
  deriving DecidableEq, Repr

/-- Stable insertion into a list of signature infos sorted by descending
signer key. -/
def insertSigInfoDesc (x : SignatureInfo) : List SignatureInfo → List SignatureInfo
  | [] => [x]
  | y :: ys =>
    if y.signerPubKey < x.signerPubKey then x :: y :: ys else y :: insertSigInfoDesc x ys

/-- Sort signatures in reverse lexicographic order of their signing public
keys, as the test helper `sortSignatureInfo` does, so that signatures line
up with the script-encoded key order. -/
def sortSignatureInfo (l : List SignatureInfo) : List SignatureInfo :=
  match l with
  | [] => []
  | x :: xs => insertSigInfoDesc x (sortSignatureInfo xs)

/-- A deterministic, injective serialization of a leaf script. -/
def serializeScript : Script → List Nat
  | .timelock staker tl => [0, staker, tl]
  | .unbonding ks k staker => 1 :: k :: staker :: ks.length :: ks
  | .slashing ks k vs staker => 2 :: k :: staker :: ks.length :: (ks ++ vs.length :: vs)

/-- A tapleaf encoding: leaf version byte, script length, script bytes. -/
def tapLeafEncode (s : Script) : List Nat :=
  0xc0 :: (serializeScript s).length :: serializeScript s

/-- Modelled from the spec (section 4.2): the taproot output script committed
to the merkle tree over the three leaves under the fixed unspendable internal
key.  The exact hashing is abstracted by a deterministic injective encoding;
only determinism and dependence on the three leaves matter here. -/
def scriptPubKeyOf (tl ub sl : Script) : List Nat :=
  0x51 :: 0x20 :: (tapLeafEncode tl ++ tapLeafEncode ub ++ tapLeafEncode sl)

/-- Modelled from the spec: `BuildStakingInfo` of the `btcstaking` package is
not among the provided sources (only its callers in the tests are).  Per
spec sections 4.1 and 4.2 it validates the key set and threshold, sorts each
multisig key list in descending lexicographic order, compiles the three leaf
scripts and merkleizes them into a single output script, deterministically
and with no randomness. -/
def BuildStakingInfo (stakerKey : PubKey) (validatorKeys covenantKeys : List PubKey)
    (covenantThreshold : Nat) (stakingTime : Nat) (stakingAmount : Int) (net : Nat) :
    Except BuildError StakingInfo :=
  if validatorKeys = [] ∨ covenantKeys = [] then
    .error .emptyKeySet
  else if covenantThreshold = 0 ∨ covenantKeys.length < covenantThreshold then
    .error .invalidThreshold
  else
    .ok
      { stakingOutput :=
          { pkScript :=
              scriptPubKeyOf (Script.timelock stakerKey stakingTime)
                (Script.unbonding (sortDesc covenantKeys) covenantThreshold stakerKey)
                (Script.slashing (sortDesc covenantKeys) covenantThreshold
                  (sortDesc validatorKeys) stakerKey)
            value := stakingAmount }
        timeLockScript := Script.timelock stakerKey stakingTime
        unbondingScript := Script.unbonding (sortDesc covenantKeys) covenantThreshold stakerKey
        slashingScript := Script.slashing (sortDesc covenantKeys) covenantThreshold
          (sortDesc validatorKeys) stakerKey }

/-- Spend information for the timelock path: revealed leaf plus control block
built from the sibling leaves. -/
def StakingInfo.TimeLockPathSpendInfo (i : StakingInfo) : SpendInfo :=
  ⟨i.timeLockScript, 0xc0 :: (tapLeafEncode i.unbondingScript ++ tapLeafEncode i.slashingScript)⟩

/-- Spend information for the unbonding path. -/
def StakingInfo.UnbondingPathSpendInfo (i : StakingInfo) : SpendInfo :=
  ⟨i.unbondingScript, 0xc0 :: (tapLeafEncode i.timeLockScript ++ tapLeafEncode i.slashingScript)⟩

/-- Spend information for the slashing path. -/
def StakingInfo.SlashingPathSpendInfo (i : StakingInfo) : SpendInfo :=
  ⟨i.slashingScript, 0xc0 :: (tapLeafEncode i.timeLockScript ++ tapLeafEncode i.unbondingScript)⟩

/-- Modelled from the spec: the accumulate-and-compare threshold check of a
multisig leaf (spec section 4.1), as a conformant interpreter executes it.
Each slot holds either the zero-length element, contributing nothing to the
count, or a signature that must verify against exactly the key at that slot
position; a non-empty element that fails verification aborts the script.
Returns the number of valid signatures, or `none` on abort or when the
element count does not match the key count. -/
def checkSlots : List PubKey → List (Option SchnorrSig) → Option Nat
  | [], [] => some 0
  | key :: keys, slot :: slots =>
    match checkSlots keys slots with
    | none => none
    | some c =>
      match slot with
      | none => some c
      | some s => if s.signer = key then some (c + 1) else none
  | _, _ => none

/-- The number of present (non-empty) signature slots. -/
def countPresent : List (Option SchnorrSig) → Nat
  | [] => 0
  | none :: rest => countPresent rest
  | some _ :: rest => countPresent rest + 1

/-- Modelled from the spec: execution of one revealed leaf script by a
conformant interpreter (the external judge of spec section 1), on the
signature elements of the witness and the sequence number of the spending
input.  The timelock leaf checks the staker signature and the relative
locktime; the unbonding leaf checks the covenant threshold and the mandatory
staker signature; the slashing leaf additionally checks the validator list
at the fixed threshold one. -/
def execLeaf : Script → List (Option SchnorrSig) → Nat → Bool
  | .timelock staker tl, elems, seq =>
    match elems with
    | [some s] => decide (s.signer = staker) && decide (tl ≤ seq)
    | _ => false
  | .unbonding covKeys k staker, elems, _ =>
    match checkSlots covKeys (elems.take covKeys.length), elems.drop covKeys.length with
    | some c, [some s] => decide (k ≤ c) && decide (s.signer = staker)
    | _, _ => false
  | .slashing covKeys k valKeys staker, elems, _ =>
    match checkSlots covKeys (elems.take covKeys.length),
        checkSlots valKeys ((elems.drop covKeys.length).take valKeys.length),
        (elems.drop covKeys.length).drop valKeys.length with
    | some cc, some vc, [some s] =>
      decide (k ≤ cc) && decide (1 ≤ vc) && decide (s.signer = staker)
    | _, _, _ => false

/-- The witness reveals a genuine leaf of the committed script tree: its
leaf script and control block must match one of the three per-path spend
infos of the staking output. -/
def spendInfoMatches (info : StakingInfo) (w : Witness) : Bool :=
  decide ((⟨w.leafScript, w.controlBlock⟩ : SpendInfo) = info.TimeLockPathSpendInfo
    ∨ (⟨w.leafScript, w.controlBlock⟩ : SpendInfo) = info.UnbondingPathSpendInfo
    ∨ (⟨w.leafScript, w.controlBlock⟩ : SpendInfo) = info.SlashingPathSpendInfo)

/-- Modelled from the spec: acceptance by a conformant script interpreter of
a script-path spend of the staking output, given the sequence number of the
spending input — the control block must prove tree membership of the
revealed leaf, and the leaf script must execute successfully on the
signature elements. -/
def VerifyWitness (info : StakingInfo) (sequence : Nat) (w : Witness) : Bool :=
  spendInfoMatches info w && execLeaf w.leafScript w.sigElems sequence

/-- Modelled from the spec (section 4.4): the timelock-path witness is the
single staker signature element, the revealed leaf and the control block. -/
def CreateTimeLockPathWitness (si : SpendInfo) (stakerSig : SchnorrSig) : Witness :=
  ⟨[some stakerSig], si.revealedLeaf, si.controlBlock⟩

/-- Modelled from the spec (section 4.4): the unbonding-path witness is the
covenant signature slots in script key order, every missing signature
represented by a zero-length element, followed by the staker signature, the
revealed leaf and the control block.  Fails with `signatureCountMismatch`
when the number of supplied slots differs from the number of covenant keys;
threshold satisfaction is never pre-validated. -/
def CreateUnbondingPathWitness (si : SpendInfo) (covenantSigs : List (Option SchnorrSig))
    (stakerSig : SchnorrSig) : Except WitnessError Witness :=
  match si.revealedLeaf with
  | .unbonding covKeys _ _ =>
    if covenantSigs.length = covKeys.length then
      .ok ⟨covenantSigs ++ [some stakerSig], si.revealedLeaf, si.controlBlock⟩
    else
      .error .signatureCountMismatch
  | _ => .error .wrongLeaf

/-- Modelled from the spec (section 4.4): the slashing-path witness is the
covenant signature slots, then the validator signature slots, each in script
key order with zero-length elements for missing signatures, followed by the
staker signature, the revealed leaf and the control block.  Fails with
`signatureCountMismatch` when a slot count differs from the corresponding
key count; threshold satisfaction is never pre-validated. -/
def CreateSlashingPathWitness (si : SpendInfo) (covenantSigs validatorSigs : List (Option SchnorrSig))
    (stakerSig : SchnorrSig) : Except WitnessError Witness :=
  match si.revealedLeaf with
  | .slashing covKeys _ valKeys _ =>
    if covenantSigs.length = covKeys.length then
      if validatorSigs.length = valKeys.length then
        .ok ⟨covenantSigs ++ validatorSigs ++ [some stakerSig], si.revealedLeaf, si.controlBlock⟩
      else .error .signatureCountMismatch
    else .error .signatureCountMismatch
  | _ => .error .wrongLeaf

/-- A slot is well-formed for a key when it is empty or holds a signature by
that key. -/
def slotOkB (key : PubKey) : Option SchnorrSig → Bool
  | none => true
  | some s => s.signer == key

/-- Every supplied slot verifies against the key at its position. -/
def allValid (keys : List PubKey) (slots : List (Option SchnorrSig)) : Bool :=
  (keys.zip slots).all fun p => slotOkB p.1 p.2

/-- Whether a fallible computation returned a result. -/
def succeeded {ε α : Type} : Except ε α → Bool
  | .ok _ => true
  | .error _ => false

instance {ε α : Type} [DecidableEq ε] [DecidableEq α] : DecidableEq (Except ε α) := fun a b =>
  match a, b with
  | .ok x, .ok y =>
    match decEq x y with
    | isTrue h => isTrue (h ▸ rfl)
    | isFalse h => isFalse (fun hc => h (Except.ok.inj hc))
  | .error x, .error y =>
    match decEq x y with
    | isTrue h => isTrue (h ▸ rfl)
    | isFalse h => isFalse (fun hc => h (Except.error.inj hc))
  | .ok _, .error _ => isFalse (fun hc => Except.noConfusion hc)
  | .error _, .ok _ => isFalse (fun hc => Except.noConfusion hc)

/-- A concrete staking scenario used to instantiate the verified statements:
staker key 9, validator keys 21 and 22, covenant keys 1..5 with threshold 3,
staking time 5 blocks. -/
def wStakingInfo : StakingInfo :=
  match BuildStakingInfo 9 [21, 22] [1, 2, 3, 4, 5] 3 5 1000 0 with
  | .ok i => i
  | .error _ => ⟨⟨[], 0⟩, .timelock 0 0, .timelock 0 0, .timelock 0 0⟩

/-- Concrete covenant slots with exactly three present signatures, aligned
with the descending key order 5, 4, 3, 2, 1. -/
def wUbSigs : List (Option SchnorrSig) := [some ⟨5⟩, some ⟨4⟩, some ⟨3⟩, none, none]

/-- The unbonding witness assembled from `wUbSigs` and the staker signature. -/
def wUbWitness : Witness :=
  match CreateUnbondingPathWitness wStakingInfo.UnbondingPathSpendInfo wUbSigs ⟨9⟩ with
  | .ok w => w
  | .error _ => ⟨[], .timelock 0 0, []⟩

/-- Concrete covenant slots for the slashing path, three present. -/
def wSlCovSigs : List (Option SchnorrSig) := [some ⟨5⟩, some ⟨4⟩, some ⟨3⟩, none, none]

/-- Concrete validator slots: exactly one present signature, aligned with
the descending validator key order 22, 21. -/
def wSlValSigs : List (Option SchnorrSig) := [some ⟨22⟩, none]

/-- The slashing witness assembled from the concrete slots and the staker
signature. -/
def wSlWitness : Witness :=
  match CreateSlashingPathWitness wStakingInfo.SlashingPathSpendInfo wSlCovSigs wSlValSigs ⟨9⟩ with
  | .ok w => w
  | .error _ => ⟨[], .timelock 0 0, []⟩

/-- Staking scenario for the signature-ordering claim: staker key 100, one
validator key 50, covenant keys 1..5 with threshold 3. -/
def c7Info : StakingInfo :=
  match BuildStakingInfo 100 [50] [1, 2, 3, 4, 5] 3 5 1000 0 with
  | .ok i => i
  | .error _ => ⟨⟨[], 0⟩, .timelock 0 0, .timelock 0 0, .timelock 0 0⟩

/-- All five covenant signatures, sorted by `sortSignatureInfo` into
descending order of their signing keys, hence aligned with the
script-encoded key order. -/
def c7SortedSigs : List (Option SchnorrSig) :=
  (sortSignatureInfo ([1, 2, 3, 4, 5].map (fun key => ⟨key, ⟨key⟩⟩))).map
    (fun i => some i.signature)

/-- The same signatures with the first two positions swapped, so that they
no longer align with the script-encoded key order. -/
def c7SwappedSigs : List (Option SchnorrSig) :=
  match c7SortedSigs with
  | a :: b :: rest => b :: a :: rest
  | l => l

/-- The unbonding witness assembled from the correctly ordered signatures. -/
def c7GoodWitness : Witness :=
  match CreateUnbondingPathWitness c7Info.UnbondingPathSpendInfo c7SortedSigs ⟨100⟩ with
  | .ok w => w
  | .error _ => ⟨[], .timelock 0 0, []⟩

/-- The unbonding witness assembled from the swapped signatures. -/
def c7SwappedWitness : Witness :=
  match CreateUnbondingPathWitness c7Info.UnbondingPathSpendInfo c7SwappedSigs ⟨100⟩ with
  | .ok w => w
  | .error _ => ⟨[], .timelock 0 0, []⟩

lemma checkSlots_valid (keys : List PubKey) (slots : List (Option SchnorrSig))
    (hlen : slots.length = keys.length) (hvalid : allValid keys slots = true) :
    checkSlots keys slots = some (countPresent slots) := by
  induction keys generalizing slots with
  | nil =>
    cases slots with
    | nil => rfl
    | cons s ss => simp at hlen
  | cons key keys ih =>
    cases slots with
    | nil => simp at hlen
    | cons slot slots =>
      simp only [List.length_cons, Nat.add_right_cancel_iff] at hlen
      simp only [allValid, List.zip_cons_cons, List.all_cons, Bool.and_eq_true] at hvalid
      obtain ⟨h1, h2⟩ := hvalid
      have hrec := ih slots hlen h2
      cases slot with
      | none => simp [checkSlots, hrec, countPresent]
      | some s =>
        simp only [slotOkB, beq_iff_eq] at h1
        simp [checkSlots, hrec, countPresent, h1]

lemma execLeaf_unbonding (covKeys : List PubKey) (k : Nat) (st : PubKey)
    (covSigs : List (Option SchnorrSig)) (sSig : SchnorrSig) (seq : Nat)
    (hlen : covSigs.length = covKeys.length) (hvalid : allValid covKeys covSigs = true) :
    execLeaf (.unbonding covKeys k st) (covSigs ++ [some sSig]) seq
      = (decide (k ≤ countPresent covSigs) && decide (sSig.signer = st)) := by
  have htake : (covSigs ++ [some sSig]).take covKeys.length = covSigs := by
    rw [← hlen]; exact List.take_left covSigs _
  have hdrop : (covSigs ++ [some sSig]).drop covKeys.length = [some sSig] := by
    rw [← hlen]; exact List.drop_left covSigs _
  simp [execLeaf, htake, hdrop, checkSlots_valid covKeys covSigs hlen hvalid]

lemma execLeaf_slashing (covKeys : List PubKey) (k : Nat) (valKeys : List PubKey) (st : PubKey)
    (covSigs valSigs : List (Option SchnorrSig)) (sSig : SchnorrSig) (seq : Nat)
    (hclen : covSigs.length = covKeys.length) (hvlen : valSigs.length = valKeys.length)
    (hcv : allValid covKeys covSigs = true) (hvv : allValid valKeys valSigs = true) :
    execLeaf (.slashing covKeys k valKeys st) (covSigs ++ (valSigs ++ [some sSig])) seq
      = (decide (k ≤ countPresent covSigs) && decide (1 ≤ countPresent valSigs)
          && decide (sSig.signer = st)) := by
  have htake : (covSigs ++ (valSigs ++ [some sSig])).take covKeys.length = covSigs := by
    rw [← hclen]; exact List.take_left covSigs _
  have hdrop : (covSigs ++ (valSigs ++ [some sSig])).drop covKeys.length
      = valSigs ++ [some sSig] := by
    rw [← hclen]; exact List.drop_left covSigs _
  have htake2 : (valSigs ++ [some sSig]).take valKeys.length = valSigs := by
    rw [← hvlen]; exact List.take_left valSigs _
  have hdrop2 : (valSigs ++ [some sSig]).drop valKeys.length = [some sSig] := by
    rw [← hvlen]; exact List.drop_left valSigs _
  simp [execLeaf, htake, hdrop, htake2, hdrop2,
    checkSlots_valid covKeys covSigs hclen hcv, checkSlots_valid valKeys valSigs hvlen hvv]

lemma buildStakingInfo_fields (st : PubKey) (vk ck : List PubKey) (k tl : Nat)
    (amt : Int) (net : Nat) (info : StakingInfo)
    (h : BuildStakingInfo st vk ck k tl amt net = .ok info) :
    info.timeLockScript = .timelock st tl ∧
    info.unbondingScript = .unbonding (sortDesc ck) k st ∧
    info.slashingScript = .slashing (sortDesc ck) k (sortDesc vk) st := by
  unfold BuildStakingInfo at h
  split at h
  · exact Except.noConfusion h
  · split at h
    · exact Except.noConfusion h
    · injection h with h
      subst h
      exact ⟨rfl, rfl, rfl⟩

lemma verify_unbonding_iff (info : StakingInfo) (covKeys : List PubKey) (k : Nat) (st : PubKey)
    (covSigs : List (Option SchnorrSig)) (sSig : SchnorrSig) (w : Witness) (seq : Nat)
    (hleaf : info.unbondingScript = .unbonding covKeys k st)
    (hvalid : allValid covKeys covSigs = true)
    (hsig : sSig.signer = st)
    (hw : CreateUnbondingPathWitness info.UnbondingPathSpendInfo covSigs sSig = .ok w) :
    (VerifyWitness info seq w = true ↔ k ≤ countPresent covSigs) := by
  simp only [CreateUnbondingPathWitness, StakingInfo.UnbondingPathSpendInfo, hleaf] at hw
  split at hw
  case isTrue hlen =>
    injection hw with hw
    subst hw
    have hmatch : spendInfoMatches info
        ⟨covSigs ++ [some sSig], .unbonding covKeys k st,
          0xc0 :: (tapLeafEncode info.timeLockScript ++ tapLeafEncode info.slashingScript)⟩
        = true := by
      simp only [spendInfoMatches, decide_eq_true_eq]
      right; left
      simp [StakingInfo.UnbondingPathSpendInfo, hleaf]
    simp [VerifyWitness, hmatch, execLeaf_unbonding covKeys k st covSigs sSig seq hlen hvalid, hsig]
  case isFalse hlen =>
    exact Except.noConfusion hw

lemma verify_slashing_iff (info : StakingInfo) (covKeys : List PubKey) (k : Nat)
    (valKeys : List PubKey) (st : PubKey)
    (covSigs valSigs : List (Option SchnorrSig)) (sSig : SchnorrSig) (w : Witness) (seq : Nat)
    (hleaf : info.slashingScript = .slashing covKeys k valKeys st)
    (hcv : allValid covKeys covSigs = true)
    (hvv : allValid valKeys valSigs = true)
    (hsig : sSig.signer = st)
    (hw : CreateSlashingPathWitness info.SlashingPathSpendInfo covSigs valSigs sSig = .ok w) :
    (VerifyWitness info seq w = true
      ↔ (k ≤ countPresent covSigs ∧ 1 ≤ countPresent valSigs)) := by
  simp only [CreateSlashingPathWitness, StakingInfo.SlashingPathSpendInfo, hleaf] at hw
  split at hw
  case isTrue hclen =>
    split at hw
    case isTrue hvlen =>
      injection hw with hw
      subst hw
      have hmatch : spendInfoMatches info
          ⟨covSigs ++ (valSigs ++ [some sSig]), .slashing covKeys k valKeys st,
            0xc0 :: (tapLeafEncode info.timeLockScript ++ tapLeafEncode info.unbondingScript)⟩
          = true := by
        simp only [spendInfoMatches, decide_eq_true_eq]
        right; right
        simp [StakingInfo.SlashingPathSpendInfo, hleaf]
      simp [VerifyWitness, hmatch,
        execLeaf_slashing covKeys k valKeys st covSigs valSigs sSig seq hclen hvlen hcv hvv,
        hsig, and_assoc]
    case isFalse hvlen =>
      exact Except.noConfusion hw
  case isFalse hclen =>
    exact Except.noConfusion hw

/-- Claim C1: for the unbonding path with covenant keys and threshold k, a
witness built by CreateUnbondingPathWitness from a slot list of covenant
signatures (each present slot a valid signature of the key at its position
in script order) plus a valid staker signature is accepted by a conformant
interpreter exactly when the number of present valid covenant signatures is
at least k, and rejected when it is below k. -/
theorem unbondingPath_threshold_iff
    (stakerKey : PubKey) (valKeys covKeys : List PubKey) (k tl : Nat) (amt : Int) (net : Nat)
    (info : StakingInfo) (covSigs : List (Option SchnorrSig)) (stakerSig : SchnorrSig)
    (w : Witness) (seq : Nat)
    (hbuild : BuildStakingInfo stakerKey valKeys covKeys k tl amt net = .ok info)
    (hvalid : allValid (sortDesc covKeys) covSigs = true)
    (hstaker : stakerSig.signer = stakerKey)
    (hw : CreateUnbondingPathWitness info.UnbondingPathSpendInfo covSigs stakerSig = .ok w) :
    (VerifyWitness info seq w = true ↔ k ≤ countPresent covSigs) := by
  obtain ⟨htl, hub, hsl⟩ := buildStakingInfo_fields _ _ _ _ _ _ _ _ hbuild
  exact verify_unbonding_iff info (sortDesc covKeys) k stakerKey covSigs stakerSig w seq
    hub hvalid hstaker hw

/-- Claim C2: for the slashing path with 2 validator keys and 5 covenant keys
at covenant threshold 3, a witness built by CreateSlashingPathWitness with
exactly one present valid validator signature, at least 3 present valid
covenant signatures and a valid staker signature is accepted by the
interpreter; with zero present validator signatures it is rejected — the
validator check has fixed threshold 1 independent of the list length. -/
theorem slashingPath_one_validator_suffices
    (stakerKey : PubKey) (valKeys covKeys : List PubKey) (tl : Nat) (amt : Int) (net : Nat)
    (info : StakingInfo) (covSigs valSigs : List (Option SchnorrSig)) (stakerSig : SchnorrSig)
    (w : Witness) (seq : Nat)
    (hbuild : BuildStakingInfo stakerKey valKeys covKeys 3 tl amt net = .ok info)
    (hvk : valKeys.length = 2) (hck : covKeys.length = 5)
    (hcv : allValid (sortDesc covKeys) covSigs = true)
    (hvv : allValid (sortDesc valKeys) valSigs = true)
    (hstaker : stakerSig.signer = stakerKey)
    (hw : CreateSlashingPathWitness info.SlashingPathSpendInfo covSigs valSigs stakerSig = .ok w) :
    ((countPresent valSigs = 1 ∧ 3 ≤ countPresent covSigs) → VerifyWitness info seq w = true) ∧
    (countPresent valSigs = 0 → VerifyWitness info seq w = false) := by
  obtain ⟨htl, hub, hsl⟩ := buildStakingInfo_fields _ _ _ _ _ _ _ _ hbuild
  have hiff := verify_slashing_iff info (sortDesc covKeys) 3 (sortDesc valKeys) stakerKey
    covSigs valSigs stakerSig w seq hsl hcv hvv hstaker hw
  constructor
  · rintro ⟨h1, h2⟩
    exact hiff.mpr ⟨h2, by omega⟩
  · intro h0
    cases hV : VerifyWitness info seq w with
    | false => rfl
    | true =>
      have := hiff.mp hV
      omega

/-- Claim C3: BuildStakingInfo is deterministic — two invocations on
componentwise identical inputs yield byte-identical output scripts, with no
dependence on randomness or call history (the model is a pure function of
its arguments). -/
theorem buildStakingInfo_deterministic
    (st st' : PubKey) (vk vk' ck ck' : List PubKey) (k k' tl tl' : Nat)
    (amt amt' : Int) (net net' : Nat) (info info' : StakingInfo)
    (h1 : st = st') (h2 : vk = vk') (h3 : ck = ck') (h4 : k = k') (h5 : tl = tl')
    (h6 : amt = amt') (h7 : net = net')
    (hb : BuildStakingInfo st vk ck k tl amt net = .ok info)
    (hb' : BuildStakingInfo st' vk' ck' k' tl' amt' net' = .ok info') :
    info.stakingOutput.pkScript = info'.stakingOutput.pkScript := by
  subst h1; subst h2; subst h3; subst h4; subst h5; subst h6; subst h7
  rw [hb] at hb'
  injection hb' with h
  rw [h]

/-- Claim C6: for the timelock path, a witness built by
CreateTimeLockPathWitness is accepted by the interpreter exactly when the
signature is by the staker key and the sequence number of the spending input
is at least the timelock; it is rejected below the timelock and rejected for
a signature by any other key. -/
theorem timeLockPath_accepts_iff
    (stakerKey : PubKey) (valKeys covKeys : List PubKey) (k tl : Nat) (amt : Int) (net : Nat)
    (info : StakingInfo) (sig : SchnorrSig) (seq : Nat)
    (hbuild : BuildStakingInfo stakerKey valKeys covKeys k tl amt net = .ok info) :
    (VerifyWitness info seq (CreateTimeLockPathWitness info.TimeLockPathSpendInfo sig) = true
      ↔ (sig.signer = stakerKey ∧ tl ≤ seq)) := by
  obtain ⟨htl, hub, hsl⟩ := buildStakingInfo_fields _ _ _ _ _ _ _ _ hbuild
  have hmatch : spendInfoMatches info
      ⟨[some sig], Script.timelock stakerKey tl,
        0xc0 :: (tapLeafEncode info.unbondingScript ++ tapLeafEncode info.slashingScript)⟩
      = true := by
    simp only [spendInfoMatches, decide_eq_true_eq]
    left
    simp [StakingInfo.TimeLockPathSpendInfo, htl]
  simp [VerifyWitness, hmatch, CreateTimeLockPathWitness, StakingInfo.TimeLockPathSpendInfo,
    htl, execLeaf]

example : sortDesc [1, 2, 3, 4, 5] = [5, 4, 3, 2, 1] := by decide

example :
    checkSlots [5, 4, 3] [some ⟨5⟩, none, some ⟨3⟩] = some 2 := by decide

example :
    checkSlots [5, 4, 3] [some ⟨4⟩, some ⟨5⟩, some ⟨3⟩] = none := by decide

/-- Claim C4: for every witness built by CreateUnbondingPathWitness or
CreateSlashingPathWitness from slot lists whose lengths equal the role key
counts, every slot not backed by a signature is represented in the witness
stack by a zero-length element (`none`) at that slot's position — the
signature-element part of the stack has fixed size (role key counts plus
the staker slot) regardless of how many signatures are present, and the
two further stack elements, leaf script and control block, are always
present; missing signatures are never omitted. -/
theorem witness_pads_missing_slots
    (si₁ si₂ : SpendInfo) (ck : List PubKey) (k : Nat) (st : PubKey)
    (ck₂ : List PubKey) (k₂ : Nat) (vk : List PubKey) (st₂ : PubKey)
    (covSigs covSigs₂ valSigs₂ : List (Option SchnorrSig)) (s₁ s₂ : SchnorrSig)
    (w₁ w₂ : Witness)
    (h₁ : si₁.revealedLeaf = .unbonding ck k st)
    (hw₁ : CreateUnbondingPathWitness si₁ covSigs s₁ = .ok w₁)
    (h₂ : si₂.revealedLeaf = .slashing ck₂ k₂ vk st₂)
    (hw₂ : CreateSlashingPathWitness si₂ covSigs₂ valSigs₂ s₂ = .ok w₂) :
    (w₁.sigElems.length = ck.length + 1 ∧
      ∀ i, i < ck.length → w₁.sigElems[i]? = covSigs[i]?) ∧
    (w₂.sigElems.length = ck₂.length + vk.length + 1 ∧
      (∀ i, i < ck₂.length → w₂.sigElems[i]? = covSigs₂[i]?) ∧
      (∀ i, i < vk.length → w₂.sigElems[ck₂.length + i]? = valSigs₂[i]?)) := by
  simp only [CreateUnbondingPathWitness, h₁] at hw₁
  split at hw₁
  case isFalse => exact Except.noConfusion hw₁
  case isTrue hlen₁ =>
    injection hw₁ with hw₁
    subst hw₁
    simp only [CreateSlashingPathWitness, h₂] at hw₂
    split at hw₂
    case isFalse => exact Except.noConfusion hw₂
    case isTrue hclen₂ =>
      split at hw₂
      case isFalse => exact Except.noConfusion hw₂
      case isTrue hvlen₂ =>
        injection hw₂ with hw₂
        subst hw₂
        refine ⟨⟨by simp [hlen₁], ?_⟩,
          ⟨by simp only [List.length_append, List.length_cons, List.length_nil,
              hclen₂, hvlen₂], ?_, ?_⟩⟩
        · intro i hi
          dsimp only
          exact List.getElem?_append_left (by omega)
        · intro i hi
          dsimp only
          rw [List.getElem?_append_left
            (show i < (covSigs₂ ++ valSigs₂).length by
              simp only [List.length_append]; omega)]
          exact List.getElem?_append_left (by omega)
        · intro i hi
          dsimp only
          rw [List.getElem?_append_left
            (show ck₂.length + i < (covSigs₂ ++ valSigs₂).length by
              simp only [List.length_append]; omega)]
          have hright : (covSigs₂ ++ valSigs₂)[ck₂.length + i]?
              = valSigs₂[ck₂.length + i - covSigs₂.length]? :=
            List.getElem?_append_right (by omega)
          have harith : ck₂.length + i - covSigs₂.length = i := by omega
          rw [hright, harith]

/-- Claim C5: witness assembly returns an error exactly when the number of
provided signature slots for a role differs from the number of keys in that
role; for slot lists of the correct lengths it succeeds even when fewer
than the threshold number of signatures are present — threshold
satisfaction is never pre-validated at build time. -/
theorem witnessAssembly_error_iff_count_mismatch
    (si₁ si₂ : SpendInfo) (ck : List PubKey) (k : Nat) (st : PubKey)
    (ck₂ : List PubKey) (k₂ : Nat) (vk : List PubKey) (st₂ : PubKey)
    (covSigs covSigs₂ valSigs₂ : List (Option SchnorrSig)) (s₁ s₂ : SchnorrSig)
    (h₁ : si₁.revealedLeaf = .unbonding ck k st)
    (h₂ : si₂.revealedLeaf = .slashing ck₂ k₂ vk st₂) :
    (succeeded (CreateUnbondingPathWitness si₁ covSigs s₁) = true
      ↔ covSigs.length = ck.length) ∧
    (succeeded (CreateSlashingPathWitness si₂ covSigs₂ valSigs₂ s₂) = true
      ↔ (covSigs₂.length = ck₂.length ∧ valSigs₂.length = vk.length)) := by
  constructor
  · simp only [CreateUnbondingPathWitness, h₁]
    split
    case isTrue h => simp [succeeded, h]
    case isFalse h => simp [succeeded, h]
  · simp only [CreateSlashingPathWitness, h₂]
    split
    case isTrue hc =>
      split
      case isTrue hv => simp [succeeded, hc, hv]
      case isFalse hv => simp [succeeded, hc, hv]
    case isFalse hc => simp [succeeded, hc]

/-- Claim C7: signature position is load-bearing — for the covenant
signature set `c7SortedSigs`, which satisfies the threshold when ordered by
descending lexicographic order of the signing keys, the witness obtained
after swapping two covenant signatures (so they no longer align with the
script-encoded key order) is rejected by the interpreter, even though the
swapped slots still hold enough signatures to satisfy the threshold and the
same signatures in the correct order are accepted. -/
theorem covenantSignatureOrder_load_bearing :
    CreateUnbondingPathWitness c7Info.UnbondingPathSpendInfo c7SortedSigs ⟨100⟩
        = .ok c7GoodWitness
      ∧ VerifyWitness c7Info 0 c7GoodWitness = true
      ∧ CreateUnbondingPathWitness c7Info.UnbondingPathSpendInfo c7SwappedSigs ⟨100⟩
        = .ok c7SwappedWitness
      ∧ 3 ≤ countPresent c7SwappedSigs
      ∧ VerifyWitness c7Info 0 c7SwappedWitness = false := by
  decide

/-- Witness for claim C1: in the concrete 3-of-5 scenario with three present
covenant signatures, the assembled unbonding witness is accepted. -/
theorem unbondingPath_threshold_iff_witness :
    VerifyWitness wStakingInfo 0 wUbWitness = true :=
  (unbondingPath_threshold_iff 9 [21, 22] [1, 2, 3, 4, 5] 3 5 1000 0 wStakingInfo wUbSigs ⟨9⟩
    wUbWitness 0 (by decide) (by decide) (by decide) (by decide)).mpr (by decide)

/-- Witness for claim C2: in the concrete restaking scenario with two
validator keys, one present validator signature and three covenant
signatures, the assembled slashing witness is accepted. -/
theorem slashingPath_one_validator_suffices_witness :
    VerifyWitness wStakingInfo 0 wSlWitness = true :=
  (slashingPath_one_validator_suffices 9 [21, 22] [1, 2, 3, 4, 5] 5 1000 0 wStakingInfo
    wSlCovSigs wSlValSigs ⟨9⟩ wSlWitness 0 (by decide) (by decide) (by decide) (by decide)
    (by decide) (by decide) (by decide)).1 (by decide)

/-- Witness for claim C3: two builds of the concrete scenario produce the
same output script. -/
theorem buildStakingInfo_deterministic_witness :
    wStakingInfo.stakingOutput.pkScript = wStakingInfo.stakingOutput.pkScript :=
  buildStakingInfo_deterministic 9 9 [21, 22] [21, 22] [1, 2, 3, 4, 5] [1, 2, 3, 4, 5]
    3 3 5 5 1000 1000 0 0 wStakingInfo wStakingInfo rfl rfl rfl rfl rfl rfl rfl
    (by decide) (by decide)

/-- Witness for claim C4: in the concrete scenarios the unbonding witness
has six signature elements and carries a zero-length element at empty slot
three, and the slashing witness carries the empty validator slot at its
position. -/
theorem witness_pads_missing_slots_witness :
    wUbWitness.sigElems.length = 6 ∧ wUbWitness.sigElems[3]? = some none
      ∧ wSlWitness.sigElems[6]? = some none :=
  ⟨(witness_pads_missing_slots wStakingInfo.UnbondingPathSpendInfo
      wStakingInfo.SlashingPathSpendInfo [5, 4, 3, 2, 1] 3 9 [5, 4, 3, 2, 1] 3 [22, 21] 9
      wUbSigs wSlCovSigs wSlValSigs ⟨9⟩ ⟨9⟩ wUbWitness wSlWitness
      (by decide) (by decide) (by decide) (by decide)).1.1,
   (witness_pads_missing_slots wStakingInfo.UnbondingPathSpendInfo
      wStakingInfo.SlashingPathSpendInfo [5, 4, 3, 2, 1] 3 9 [5, 4, 3, 2, 1] 3 [22, 21] 9
      wUbSigs wSlCovSigs wSlValSigs ⟨9⟩ ⟨9⟩ wUbWitness wSlWitness
      (by decide) (by decide) (by decide) (by decide)).1.2 3 (by decide),
   (witness_pads_missing_slots wStakingInfo.UnbondingPathSpendInfo
      wStakingInfo.SlashingPathSpendInfo [5, 4, 3, 2, 1] 3 9 [5, 4, 3, 2, 1] 3 [22, 21] 9
      wUbSigs wSlCovSigs wSlValSigs ⟨9⟩ ⟨9⟩ wUbWitness wSlWitness
      (by decide) (by decide) (by decide) (by decide)).2.2.2 1 (by decide)⟩

/-- Witness for claim C5: in the concrete scenario, assembly succeeds on
slot lists of the correct length even though only three of five covenant
signatures are present. -/
theorem witnessAssembly_error_iff_count_mismatch_witness :
    succeeded (CreateUnbondingPathWitness wStakingInfo.UnbondingPathSpendInfo wUbSigs ⟨9⟩)
      = true :=
  (witnessAssembly_error_iff_count_mismatch wStakingInfo.UnbondingPathSpendInfo
    wStakingInfo.SlashingPathSpendInfo [5, 4, 3, 2, 1] 3 9 [5, 4, 3, 2, 1] 3 [22, 21] 9
    wUbSigs wSlCovSigs wSlValSigs ⟨9⟩ ⟨9⟩ (by decide) (by decide)).1.mpr (by decide)

/-- Witness for claim C6: in the concrete scenario the timelock witness with
the staker signature is accepted at sequence number 5, the staking time. -/
theorem timeLockPath_accepts_iff_witness :
    VerifyWitness wStakingInfo 5
      (CreateTimeLockPathWitness wStakingInfo.TimeLockPathSpendInfo ⟨9⟩) = true :=
  (timeLockPath_accepts_iff 9 [21, 22] [1, 2, 3, 4, 5] 3 5 1000 0 wStakingInfo ⟨9⟩ 5
    (by decide)).mpr (by decide)

end BabylonStaking

namespace BabylonCLI

/-- The value of a decimal digit character, or `none` for a non-digit. -/
def digitVal (c : Char) : Option Nat :=
  if c.isDigit then some (c.toNat - 48) else none

/-- Fold decimal digits onto an accumulator; `none` on the first non-digit. -/
def parseDigitsAux : List Char → Nat → Option Nat
  | [], acc => some acc
  | c :: cs, acc =>
    match digitVal c with
    | some d => parseDigitsAux cs (acc * 10 + d)
    | none => none

/-- Parse a non-empty string of decimal digits. -/
def parseDecimal : List Char → Option Nat
  | [] => none
  | cs => parseDigitsAux cs 0

/-- The largest magnitude an sdk integer may hold: 256 bits. -/
def maxSdkInt : Nat :=
  115792089237316195423570985008687907853269984665640564039457584007913129639935

/-- Model of the library call `sdkmath.NewIntFromString` used by
`parseLockTime` and `parseBtcAmount`: parses an optionally signed decimal
integer and rejects results whose magnitude needs more than 256 bits. -/
def NewIntFromString (s : String) : Option Int :=
  let signed : Option Int :=
    match s.data with
    | '-' :: rest => (parseDecimal rest).map (fun n => -(n : Int))
    | '+' :: rest => (parseDecimal rest).map (fun n => (n : Int))
    | cs => (parseDecimal cs).map (fun n => (n : Int))
  match signed with
  | none => none
  | some i => if i.natAbs ≤ maxSdkInt then some i else none

/-- The 16-bit unsigned maximum, `math.MaxUint16`. -/
def MaxUint16 : Nat := 65535

/-- The 64-bit unsigned maximum, bound of `sdkmath.Int.IsUint64`. -/
def MaxUint64 : Int := 18446744073709551615

/-- Embedding of `parseLockTime` from the btcstaking CLI: parse the staking time string,
require it to be a valid uint64 and at most `MaxUint16`; the Go function
returns the pair of a uint16 value and an error, the value being 0 on every
error path. -/
def parseLockTime (s : String) : Nat × Option String :=
  match NewIntFromString s with
  | none => (0, some "invalid staking time")
  | some num =>
    if 0 ≤ num ∧ num ≤ MaxUint64 then
      if num.toNat > MaxUint16 then
        (0, some "staking time is too large")
      else
        (num.toNat, none)
    else
      (0, some "staking time is not valid uint")

/-- The bounds of `sdkmath.Int.IsInt64`. -/
def MaxInt64 : Int := 9223372036854775807

def MinInt64 : Int := -9223372036854775808

/-- Embedding of `parseBtcAmount` from the btcstaking CLI: parse the staking value
string, reject negative values and values not representable as int64; the
Go function returns a `btcutil.Amount` (an int64) and an error, the value
being 0 on every error path. -/
def parseBtcAmount (s : String) : Int × Option String :=
  match NewIntFromString s with
  | none => (0, some "invalid staking value")
  | some num =>
    if num < 0 then
      (0, some "staking value is negative")
    else if MinInt64 ≤ num ∧ num ≤ MaxInt64 then
      (num, none)
    else
      (0, some "staking value is not valid uint")

/-- If the parsed value is a non-negative integer of at most 65535,
parseLockTime returns it with no error. -/
lemma parseLockTime_ok (s : String) (n : Int) (h : NewIntFromString s = some n)
    (h0 : 0 ≤ n) (h65 : n ≤ 65535) : parseLockTime s = (n.toNat, none) := by
  unfold parseLockTime
  rw [h]
  dsimp only
  rw [if_pos ⟨h0, by simp only [MaxUint64]; omega⟩]
  rw [if_neg (by simp only [MaxUint16]; omega)]

/-- On every error path, parseLockTime returns the value 0. -/
lemma parseLockTime_err_val (s : String) (h : (parseLockTime s).2 ≠ none) :
    (parseLockTime s).1 = 0 := by
  unfold parseLockTime at h ⊢
  cases hp : NewIntFromString s with
  | none => rfl
  | some n =>
    rw [hp] at h
    dsimp only at h ⊢
    by_cases h1 : 0 ≤ n ∧ n ≤ MaxUint64
    · rw [if_pos h1] at h ⊢
      by_cases h2 : n.toNat > MaxUint16
      · rw [if_pos h2]
      · rw [if_neg h2] at h
        exact absurd rfl h
    · rw [if_neg h1]

/-- parseLockTime succeeds exactly on non-negative parsed values of at most
65535. -/
lemma parseLockTime_ok_iff (s : String) :
    (parseLockTime s).2 = none
      ↔ ∃ n : Int, NewIntFromString s = some n ∧ 0 ≤ n ∧ n ≤ 65535 := by
  constructor
  · intro hok
    unfold parseLockTime at hok
    cases hp : NewIntFromString s with
    | none =>
      rw [hp] at hok
      dsimp only at hok
      exact absurd hok (by simp)
    | some n =>
      rw [hp] at hok
      dsimp only at hok
      by_cases h1 : 0 ≤ n ∧ n ≤ MaxUint64
      · rw [if_pos h1] at hok
        by_cases h2 : n.toNat > MaxUint16
        · rw [if_pos h2] at hok
          exact absurd hok (by simp)
        · refine ⟨n, rfl, h1.1, ?_⟩
          simp only [MaxUint16] at h2
          omega
      · rw [if_neg h1] at hok
        exact absurd hok (by simp)
  · rintro ⟨n, hn, h0, h65⟩
    rw [parseLockTime_ok s n hn h0 h65]

/-- Claim C8: parseLockTime succeeds exactly when the input parses as a
non-negative integer of at most 65535, in which case the returned value
equals that integer; on a non-numeric string, a value not fitting uint64,
or a value above 65535, it returns an error and the value 0. -/
theorem parseLockTime_spec (s : String) :
    ((parseLockTime s).2 = none
      ↔ ∃ n : Int, NewIntFromString s = some n ∧ 0 ≤ n ∧ n ≤ 65535) ∧
    (∀ n : Int, NewIntFromString s = some n → 0 ≤ n → n ≤ 65535 →
      parseLockTime s = (n.toNat, none)) ∧
    ((parseLockTime s).2 ≠ none → (parseLockTime s).1 = 0) :=
  ⟨parseLockTime_ok_iff s,
   fun n h h0 h65 => parseLockTime_ok s n h h0 h65,
   fun h => parseLockTime_err_val s h⟩

/-- If the parsed value is a non-negative integer representable as int64,
parseBtcAmount returns it with no error. -/
lemma parseBtcAmount_ok (s : String) (n : Int) (h : NewIntFromString s = some n)
    (h0 : 0 ≤ n) (h64 : n ≤ MaxInt64) : parseBtcAmount s = (n, none) := by
  unfold parseBtcAmount
  rw [h]
  dsimp only
  rw [if_neg (by omega)]
  rw [if_pos ⟨by simp only [MinInt64]; omega, h64⟩]

/-- On every error path, parseBtcAmount returns the value 0. -/
lemma parseBtcAmount_err_val (s : String) (h : (parseBtcAmount s).2 ≠ none) :
    (parseBtcAmount s).1 = 0 := by
  unfold parseBtcAmount at h ⊢
  cases hp : NewIntFromString s with
  | none => rfl
  | some n =>
    rw [hp] at h
    dsimp only at h ⊢
    by_cases h1 : n < 0
    · rw [if_pos h1]
    · rw [if_neg h1] at h ⊢
      by_cases h2 : MinInt64 ≤ n ∧ n ≤ MaxInt64
      · rw [if_pos h2] at h
        exact absurd rfl h
      · rw [if_neg h2]

/-- parseBtcAmount succeeds exactly on non-negative parsed values
representable as int64. -/
lemma parseBtcAmount_ok_iff (s : String) :
    (parseBtcAmount s).2 = none
      ↔ ∃ n : Int, NewIntFromString s = some n ∧ 0 ≤ n ∧ n ≤ MaxInt64 := by
  constructor
  · intro hok
    unfold parseBtcAmount at hok
    cases hp : NewIntFromString s with
    | none =>
      rw [hp] at hok
      dsimp only at hok
      exact absurd hok (by simp)
    | some n =>
      rw [hp] at hok
      dsimp only at hok
      by_cases h1 : n < 0
      · rw [if_pos h1] at hok
        exact absurd hok (by simp)
      · rw [if_neg h1] at hok
        by_cases h2 : MinInt64 ≤ n ∧ n ≤ MaxInt64
        · exact ⟨n, rfl, by omega, h2.2⟩
        · rw [if_neg h2] at hok
          exact absurd hok (by simp)
  · rintro ⟨n, hn, h0, h64⟩
    rw [parseBtcAmount_ok s n hn h0 h64]

/-- Claim C9: parseBtcAmount succeeds exactly when the input parses as a
non-negative integer representable as int64, returning that integer; in
particular the input 0 is accepted with amount 0 (strict positivity is not
enforced), while negative or non-numeric inputs produce an error and 0. -/
theorem parseBtcAmount_spec (s : String) :
    ((parseBtcAmount s).2 = none
      ↔ ∃ n : Int, NewIntFromString s = some n ∧ 0 ≤ n ∧ n ≤ MaxInt64) ∧
    (∀ n : Int, NewIntFromString s = some n → 0 ≤ n → n ≤ MaxInt64 →
      parseBtcAmount s = (n, none)) ∧
    ((parseBtcAmount s).2 ≠ none → (parseBtcAmount s).1 = 0) ∧
    parseBtcAmount "0" = (0, none) :=
  ⟨parseBtcAmount_ok_iff s,
   fun n h h0 h64 => parseBtcAmount_ok s n h h0 h64,
   fun h => parseBtcAmount_err_val s h,
   by decide⟩

/-- Witness for claim C8: the input 7 is accepted and 70000 is rejected with
value 0. -/
theorem parseLockTime_spec_witness :
    parseLockTime "7" = (7, none) ∧ (parseLockTime "70000").1 = 0 :=
  ⟨(parseLockTime_spec "7").2.1 7 (by decide) (by decide) (by decide),
   (parseLockTime_spec "70000").2.2 (by decide)⟩

/-- Witness for claim C9: the input 0 is accepted with amount 0, and the
input 12 returns 12. -/
theorem parseBtcAmount_spec_witness :
    parseBtcAmount "0" = (0, none) ∧ parseBtcAmount "12" = (12, none) :=
  ⟨(parseBtcAmount_spec "0").2.2.2,
   (parseBtcAmount_spec "12").2.1 12 (by decide) (by decide) (by decide)⟩

end BabylonCLI

namespace BabylonEpoching

/-- The sdk context passed to epoching hooks, opaque to the hook combinator;
modelled by a natural number. -/
abbrev Ctx := Nat

/-- The epoch number (`sdk.Uint`). -/
abbrev Epoch := Nat

/-- The error a hook may return, opaque to the combinator. -/
abbrev HookErr := Nat

/-- One `EpochingHooks` implementation: its two hook functions, each either
succeeding or returning an error. -/
structure EpochingHooks where
  afterEpochBegins : Ctx → Epoch → Except HookErr Unit
  afterEpochEnds : Ctx → Epoch → Except HookErr Unit

/-- Embedding of `MultiEpochingHooks` from `x/epoching/types/hooks.go`: a slice of
`EpochingHooks` combined into one. -/
abbrev MultiEpochingHooks := List EpochingHooks

/-- Embedding of `MultiEpochingHooks.AfterEpochBegins`: run each wrapped hook in array
order, returning the first error and stopping there, or nil when all
succeed. -/
def AfterEpochBegins : MultiEpochingHooks → Ctx → Epoch → Except HookErr Unit
  | [], _, _ => .ok ()
  | h :: rest, ctx, epoch =>
    match h.afterEpochBegins ctx epoch with
    | .error err => .error err
    | .ok _ => AfterEpochBegins rest ctx epoch

/-- Embedding of `MultiEpochingHooks.AfterEpochEnds`: same combination for the
epoch-end hook. -/
def AfterEpochEnds : MultiEpochingHooks → Ctx → Epoch → Except HookErr Unit
  | [], _, _ => .ok ()
  | h :: rest, ctx, epoch =>
    match h.afterEpochEnds ctx epoch with
    | .error err => .error err
    | .ok _ => AfterEpochEnds rest ctx epoch

lemma afterEpochBegins_all_ok (hooks : MultiEpochingHooks) (ctx : Ctx) (epoch : Epoch)
    (h : ∀ g ∈ hooks, g.afterEpochBegins ctx epoch = .ok ()) :
    AfterEpochBegins hooks ctx epoch = .ok () := by
  induction hooks with
  | nil => rfl
  | cons g rest ih =>
    have hg := h g (List.mem_cons_self g rest)
    simp only [AfterEpochBegins, hg]
    exact ih (fun x hx => h x (List.mem_cons_of_mem g hx))

lemma afterEpochEnds_all_ok (hooks : MultiEpochingHooks) (ctx : Ctx) (epoch : Epoch)
    (h : ∀ g ∈ hooks, g.afterEpochEnds ctx epoch = .ok ()) :
    AfterEpochEnds hooks ctx epoch = .ok () := by
  induction hooks with
  | nil => rfl
  | cons g rest ih =>
    have hg := h g (List.mem_cons_self g rest)
    simp only [AfterEpochEnds, hg]
    exact ih (fun x hx => h x (List.mem_cons_of_mem g hx))

lemma afterEpochBegins_short_circuit (pre post : MultiEpochingHooks) (bad : EpochingHooks)
    (ctx : Ctx) (epoch : Epoch) (err : HookErr)
    (hpre : ∀ g ∈ pre, g.afterEpochBegins ctx epoch = .ok ())
    (hbad : bad.afterEpochBegins ctx epoch = .error err) :
    AfterEpochBegins (pre ++ bad :: post) ctx epoch = .error err := by
  induction pre with
  | nil => simp only [List.nil_append, AfterEpochBegins, hbad]
  | cons g rest ih =>
    have hg := hpre g (List.mem_cons_self g rest)
    simp only [List.cons_append, AfterEpochBegins, hg]
    exact ih (fun x hx => hpre x (List.mem_cons_of_mem g hx))

lemma afterEpochEnds_short_circuit (pre post : MultiEpochingHooks) (bad : EpochingHooks)
    (ctx : Ctx) (epoch : Epoch) (err : HookErr)
    (hpre : ∀ g ∈ pre, g.afterEpochEnds ctx epoch = .ok ())
    (hbad : bad.afterEpochEnds ctx epoch = .error err) :
    AfterEpochEnds (pre ++ bad :: post) ctx epoch = .error err := by
  induction pre with
  | nil => simp only [List.nil_append, AfterEpochEnds, hbad]
  | cons g rest ih =>
    have hg := hpre g (List.mem_cons_self g rest)
    simp only [List.cons_append, AfterEpochEnds, hg]
    exact ih (fun x hx => hpre x (List.mem_cons_of_mem g hx))

/-- Claim C10: MultiEpochingHooks.AfterEpochBegins and AfterEpochEnds invoke
the wrapped hooks in array order and short-circuit on failure — when every
hook succeeds the combinator returns nil, and when the hooks before index i
succeed and the hook at index i returns an error, that error is returned
and the hooks after index i are never invoked (the result is the same for
every choice of the remaining hook list). -/
theorem multiEpochingHooks_order_and_short_circuit (ctx : Ctx) (epoch : Epoch) :
    (∀ hooks : MultiEpochingHooks,
      (∀ g ∈ hooks, g.afterEpochBegins ctx epoch = .ok ()) →
        AfterEpochBegins hooks ctx epoch = .ok ()) ∧
    (∀ (pre post : MultiEpochingHooks) (bad : EpochingHooks) (err : HookErr),
      (∀ g ∈ pre, g.afterEpochBegins ctx epoch = .ok ()) →
        bad.afterEpochBegins ctx epoch = .error err →
        AfterEpochBegins (pre ++ bad :: post) ctx epoch = .error err) ∧
    (∀ hooks : MultiEpochingHooks,
      (∀ g ∈ hooks, g.afterEpochEnds ctx epoch = .ok ()) →
        AfterEpochEnds hooks ctx epoch = .ok ()) ∧
    (∀ (pre post : MultiEpochingHooks) (bad : EpochingHooks) (err : HookErr),
      (∀ g ∈ pre, g.afterEpochEnds ctx epoch = .ok ()) →
        bad.afterEpochEnds ctx epoch = .error err →
        AfterEpochEnds (pre ++ bad :: post) ctx epoch = .error err) :=
  ⟨fun hooks h => afterEpochBegins_all_ok hooks ctx epoch h,
   fun pre post bad err hpre hbad =>
     afterEpochBegins_short_circuit pre post bad ctx epoch err hpre hbad,
   fun hooks h => afterEpochEnds_all_ok hooks ctx epoch h,
   fun pre post bad err hpre hbad =>
     afterEpochEnds_short_circuit pre post bad ctx epoch err hpre hbad⟩

/-- A hook implementation that always succeeds. -/
def okHook : EpochingHooks :=
  ⟨fun _ _ => .ok (), fun _ _ => .ok ()⟩

/-- A hook implementation that always fails with error 7. -/
def badHook : EpochingHooks :=
  ⟨fun _ _ => .error 7, fun _ _ => .error 7⟩

/-- Witness for claim C10: with one succeeding hook before it, the failing
hook's error is returned no matter which hooks follow it. -/
theorem multiEpochingHooks_order_and_short_circuit_witness :
    AfterEpochBegins ([okHook] ++ badHook :: [okHook, okHook]) 0 0 = .error 7 :=
  (multiEpochingHooks_order_and_short_circuit 0 0).2.1 [okHook] [okHook, okHook] badHook 7
    (by intro g hg; simp only [List.mem_singleton] at hg; subst hg; rfl) rfl

end BabylonEpoching
